import Mathlib

/-!
Shallow embedding of the data-cleaning pipeline in
`Data Cleaning/clean_and_compile.py` of the SDSS-Datathon repository.

Modelling conventions:
* A pandas cell is a `PyVal`: the NaN / None missing markers, Python ints,
  floats (modelled as exact rationals), and strings.
* A float column value is `Option ℚ` with `none` for NaN.
* A DataFrame is a list of rows; the integer positions of the list model the
  RangeIndex after `reset_index(drop=True)`.
* Columns that a loader only gates on presence are tracked through an explicit
  `cols : List String` field mirroring `df.columns`.
* Python exceptions raised by the pipeline are an `Except Err` result.
* `float(...)` literals are modelled by an exact decimal parser `pyFloat?`;
  the special spellings (inf, nan, underscores in digits) are outside the
  modelled grammar, and no claim depends on them.
-/

/-- A pandas cell value.  `nanV` is `np.nan`, `noneV` is `None`; both are
missing markers for `pd.isna`.  Floats are modelled as exact rationals. -/
inductive PyVal where
  | nanV : PyVal
  | noneV : PyVal
  | intV : ℤ → PyVal
  | floatV : ℚ → PyVal
  | strV : String → PyVal
  deriving DecidableEq, Repr

/-- Model of `pd.isna` on a scalar. -/
def pdIsna : PyVal → Bool
  | .nanV => true
  | .noneV => true
  | _ => false

/-- Model of Python `str(x)` as used on cells.  For strings it is the
identity, which is the only case the claims exercise; the numeric cases use
the Lean printers and are a documented model artefact. -/
def pyStr : PyVal → String
  | .strV s => s
  | .intV n => toString n
  | .floatV q => toString q
  | .nanV => "nan"
  | .noneV => "None"

/-- Numeric value of an ASCII digit character. -/
def digitVal (c : Char) : ℕ := c.toNat - 48

/-- Value of a big-endian ASCII digit list. -/
def digitsToNat (l : List Char) : ℕ := l.foldl (fun a c => 10 * a + digitVal c) 0


/-- Model of Python `str.strip()`: drop leading and trailing whitespace. -/
def pyStrip (s : String) : String :=
  String.mk (((s.toList.dropWhile Char.isWhitespace).reverse.dropWhile Char.isWhitespace).reverse)

/-- Drop trailing whitespace only. -/
def pyStripRight (s : String) : String :=
  String.mk ((s.toList.reverse.dropWhile Char.isWhitespace).reverse)

/-- Model of `str.replace(c, "")` for a one-character pattern: remove every
occurrence of the character. -/
def removeChar (c : Char) (s : String) : String :=
  String.mk (s.toList.filter (fun x => x ≠ c))

/-- Split a character list on a separator character. -/
def splitOnChar (c : Char) : List Char → List (List Char)
  | [] => [[]]
  | x :: xs =>
    if x = c then [] :: splitOnChar c xs
    else
      match splitOnChar c xs with
      | [] => [[x]]
      | h :: t => (x :: h) :: t

/-- Split a character list at the first character satisfying `p`; the second
component is `none` when no such character occurs. -/
def splitOnFirst (p : Char → Bool) : List Char → (List Char × Option (List Char))
  | [] => ([], none)
  | c :: rest =>
    if p c then ([], some rest)
    else
      let (a, b) := splitOnFirst p rest
      (c :: a, b)

/-- Rational value of a decimal literal with integer digits `ip`, fractional
digits `fp` and decimal exponent `e`. -/
def mkDec (ip fp : List Char) (e : ℤ) : ℚ :=
  ((digitsToNat ip : ℚ) + (digitsToNat fp : ℚ) / (10 : ℚ) ^ fp.length) * (10 : ℚ) ^ e

/-- Exponent part of a Python float literal (the text after `e`/`E`). -/
def parseExp (cs : List Char) : Option ℤ :=
  match cs with
  | [] => none
  | c :: rest =>
    let (sgn, ds) : ℤ × List Char :=
      if c = '+' then (1, rest) else if c = '-' then (-1, rest) else (1, c :: rest)
    if !ds.isEmpty && ds.all Char.isDigit then some (sgn * (digitsToNat ds : ℤ)) else none

/-- Unsigned part of a Python float literal: digits, optional dot, optional
exponent. -/
def pyFloatAux (cs : List Char) : Option ℚ :=
  let (mant, expPart) := splitOnFirst (fun c => c = 'e' || c = 'E') cs
  let (ip, fpOpt) := splitOnFirst (fun c => c = '.') mant
  let fp := fpOpt.getD []
  if (!ip.isEmpty || !fp.isEmpty) && ip.all Char.isDigit && fp.all Char.isDigit then
    match expPart with
    | none => some (mkDec ip fp 0)
    | some e => (parseExp e).map (mkDec ip fp)
  else none

/-- Model of Python `float(s)` on finite decimal literals: surrounding
whitespace is ignored, an optional sign precedes digits with an optional
fractional part and exponent; anything else fails. -/
def pyFloat? (s : String) : Option ℚ :=
  match (pyStrip s).toList with
  | [] => none
  | c :: rest =>
    if c = '+' then pyFloatAux rest
    else if c = '-' then (pyFloatAux rest).map Neg.neg
    else pyFloatAux (c :: rest)

/-- The text cleaning done by `parse_money` before the float parse:
`str(x).strip().replace("$", "").replace(",", "")`. -/
def moneyClean (s : String) : String := removeChar ',' (removeChar '$' (pyStrip s))

/-- Model of `parse_money` (clean_and_compile.py lines 56-67): missing stays
missing, numerics pass through as floats, strings are stripped of `$` and `,`
and parsed, with any failure yielding the missing value. -/
def parse_money : PyVal → Option ℚ
  | .nanV => none
  | .noneV => none
  | .intV n => some (n : ℚ)
  | .floatV q => some q
  | .strV s =>
    let t := moneyClean s
    if t = "" then none else pyFloat? t

/-- The text cleaning done by `parse_number`: `str(x).strip().replace(",", "")`. -/
def numberClean (s : String) : String := removeChar ',' (pyStrip s)

/-- Model of `parse_number` (lines 69-80): as `parse_money` without the
currency-symbol stripping. -/
def parse_number : PyVal → Option ℚ
  | .nanV => none
  | .noneV => none
  | .intV n => some (n : ℚ)
  | .floatV q => some q
  | .strV s =>
    let t := numberClean s
    if t = "" then none else pyFloat? t

/-- Model of `pd.to_numeric(x, errors="coerce")` on a cell. -/
def toNumeric : PyVal → Option ℚ
  | .nanV => none
  | .noneV => none
  | .intV n => some (n : ℚ)
  | .floatV q => some q
  | .strV s => pyFloat? (pyStrip s)

/-- Model of `re.sub(r"\s*\(.*\)\s*$", "", s)` for an `s` with no surrounding
whitespace (the caller strips first): when `s` ends in a closing parenthesis
and contains an opening one, everything from the first opening parenthesis on
is removed together with the whitespace just before it. -/
def stripParenSuffix (s : String) : String :=
  let cs := s.toList
  if cs.getLast? = some ')' ∧ '(' ∈ cs then
    pyStripRight (String.mk (cs.takeWhile (fun c => c ≠ '(')))
  else s

/-- Model of matching `^(.*?),\s*([A-Z]{2})\s*$`: find the first comma whose
remainder is optional whitespace followed by exactly two ASCII capitals; the
result is the text before that comma and the two-letter code. -/
def matchStateSplit : List Char → Option (List Char × String)
  | [] => none
  | c :: rest =>
    let deeper := (matchStateSplit rest).map (fun pr => (c :: pr.1, pr.2))
    if c = ',' then
      match rest.dropWhile Char.isWhitespace with
      | [a, b] => if a.isUpper && b.isUpper then some ([], String.mk [a, b]) else deeper
      | _ => deeper
    else deeper

/-- Model of `extract_city_state` (lines 82-93): strip, drop a trailing
parenthesised annotation, then split off a trailing two-letter state code. -/
def extract_city_state (v : PyVal) : Option String × Option String :=
  if pdIsna v then (none, none)
  else
    let s := pyStrip (pyStr v)
    let s2 := stripParenSuffix s
    match matchStateSplit s2.toList with
    | none => (some s2, none)
    | some pr => (some (pyStrip (String.mk pr.1)), some pr.2)

/-- Model of `pd.to_datetime(s, errors="coerce")` restricted to the ISO
`YYYY-MM-DD` shape, returning calendar year and month. -/
def pyDate? (s : String) : Option (ℤ × ℕ) :=
  match splitOnChar '-' (pyStrip s).toList with
  | [y, m, d] =>
    if !y.isEmpty && y.all Char.isDigit && !m.isEmpty && m.all Char.isDigit
        && !d.isEmpty && d.all Char.isDigit then
      let mn := digitsToNat m
      let dn := digitsToNat d
      if 1 ≤ mn ∧ mn ≤ 12 ∧ 1 ≤ dn ∧ dn ≤ 31 then some ((digitsToNat y : ℤ), mn)
      else none
    else none
  | _ => none

/-- Calendar quarter of a month, as `Series.dt.quarter` computes it. -/
def quarterOf (m : ℕ) : ℕ := (m - 1) / 3 + 1

/-- Model of the tourism loader helper `pct` (lines 193-196): strip `%`,
parse, divide by 100, missing on failure. -/
def pct (p : String) : Option ℚ :=
  let s := removeChar '%' (pyStrip p)
  match pyFloat? s with
  | none => none
  | some q => some (q / 100)

/-- Model of Python `int(...)` applied to a float: truncation toward zero. -/
def pyIntOfFloat (q : ℚ) : ℤ := if 0 ≤ q then ⌊q⌋ else ⌈q⌉

/-- The text cleaning done by `num_k`:
`str(n).strip().replace(",", "").replace(chr(34), "")`. -/
def numkClean (n : String) : String := removeChar '"' (removeChar ',' (pyStrip n))

/-- Model of the tourism loader helper `num_k` (lines 198-202): strip commas
and double quotes, then `int(float(n)) * 1000`, missing on failure. -/
def num_k (n : String) : Option ℤ :=
  let s := numkClean n
  if s = "" then none
  else
    match pyFloat? s with
    | none => none
    | some q => some (pyIntOfFloat q * 1000)

/-- The `_STATE_TO_ABBR` table (lines 43-54), transcribed entry for entry. -/
def STATE_TO_ABBR : List (String × String) :=
  [("Alabama", "AL"), ("Alaska", "AK"), ("Arizona", "AZ"), ("Arkansas", "AR"),
   ("California", "CA"), ("Colorado", "CO"), ("Connecticut", "CT"),
   ("Delaware", "DE"), ("District of Columbia", "DC"), ("Florida", "FL"),
   ("Georgia", "GA"), ("Hawaii", "HI"), ("Idaho", "ID"), ("Illinois", "IL"),
   ("Indiana", "IN"), ("Iowa", "IA"), ("Kansas", "KS"), ("Kentucky", "KY"),
   ("Louisiana", "LA"), ("Maine", "ME"), ("Maryland", "MD"), ("Massachusetts", "MA"),
   ("Michigan", "MI"), ("Minnesota", "MN"), ("Mississippi", "MS"), ("Missouri", "MO"),
   ("Montana", "MT"), ("Nebraska", "NE"), ("Nevada", "NV"),
   ("New Hampshire", "NH"), ("New Jersey", "NJ"), ("New Mexico", "NM"),
   ("New York", "NY"), ("North Carolina", "NC"), ("North Dakota", "ND"),
   ("Ohio", "OH"), ("Oklahoma", "OK"), ("Oregon", "OR"), ("Pennsylvania", "PA"),
   ("Rhode Island", "RI"), ("South Carolina", "SC"), ("South Dakota", "SD"),
   ("Tennessee", "TN"), ("Texas", "TX"), ("Utah", "UT"), ("Vermont", "VT"),
   ("Virginia", "VA"), ("Washington", "WA"), ("West Virginia", "WV"),
   ("Wisconsin", "WI"), ("Wyoming", "WY"),
   ("Hawaiian Islands", "HI"),
   ("Guam", "GU"), ("Puerto Rico", "PR"), ("U.S. Virgin Islands", "VI"),
   ("Northern Mariana Islands", "MP"), ("American Samoa", "AS")]

/-- Model of `_STATE_TO_ABBR.get(name)`. -/
def stateAbbr? (name : String) : Option String := STATE_TO_ABBR.lookup name

/-- Parser mode for a CSV line: at a field start, inside a plain field, or
inside a quoted field. -/
inductive CsvMode where
  | start : CsvMode
  | plain : CsvMode
  | quoted : CsvMode

/-- Model of `next(csv.reader([line]))`: split on commas, honouring double
quotes at field starts with the doubled-quote escape.  `acc` holds the
current field in reverse. -/
def csvAux : CsvMode → List Char → List Char → List String
  | .start, acc, [] => [String.mk acc.reverse]
  | .start, acc, '"' :: rest => csvAux .quoted acc rest
  | .start, acc, ',' :: rest => String.mk acc.reverse :: csvAux .start [] rest
  | .start, acc, c :: rest => csvAux .plain (c :: acc) rest
  | .plain, acc, [] => [String.mk acc.reverse]
  | .plain, acc, ',' :: rest => String.mk acc.reverse :: csvAux .start [] rest
  | .plain, acc, c :: rest => csvAux .plain (c :: acc) rest
  | .quoted, acc, [] => [String.mk acc.reverse]
  | .quoted, acc, '"' :: '"' :: rest => csvAux .quoted ('"' :: acc) rest
  | .quoted, acc, '"' :: rest => csvAux .plain acc rest
  | .quoted, acc, c :: rest => csvAux .quoted (c :: acc) rest

/-- Fields of one CSV line. -/
def csvSplit (s : String) : List String := csvAux .start [] s.toList

/-- Model of `re.match(r"^\s*\d+\s*,", ln)`: the line starts with optional
whitespace, at least one digit, optional whitespace, then a comma. -/
def isDataLine (s : String) : Bool :=
  let t := s.toList.dropWhile Char.isWhitespace
  let ds := t.takeWhile Char.isDigit
  let r := (t.dropWhile Char.isDigit).dropWhile Char.isWhitespace
  !ds.isEmpty && r.headD 'x' = ','

/-- The exceptions the pipeline can raise.  `ticketsMissing` carries the list
interpolated into the `ValueError` message of `load_clean_tickets`;
`intCastError` is the `TypeError` of a lossy `astype(Int64)` cast;
the remaining constructors are the errors of the auxiliary loaders. -/
inductive Err where
  | ticketsMissing : List String → Err
  | intCastError : Err
  | fuelMissingDate : Err
  | cpiMissingDate : Err
  | noValueColumn : Err
  | tourismNoDataRows : Err
  | tourismEmptyFrame : Err
  deriving DecidableEq, Repr

/-- Equality of pipeline results is decidable, so that concrete runs can be
checked by evaluation. -/
instance {ε α : Type} [DecidableEq ε] [DecidableEq α] : DecidableEq (Except ε α) := fun a b =>
  match a, b with
  | .ok x, .ok y => if h : x = y then .isTrue (by rw [h]) else .isFalse (by simp [h])
  | .error x, .error y => if h : x = y then .isTrue (by rw [h]) else .isFalse (by simp [h])
  | .ok _, .error _ => .isFalse (by simp)
  | .error _, .ok _ => .isFalse (by simp)

/-- Traverse a list through an `Except`-returning function, failing on the
first error: the success behaviour of the column-wise pandas operations. -/
def mapME {α β : Type} (f : α → Except Err β) : List α → Except Err (List β)
  | [] => .ok []
  | x :: xs =>
    match f x with
    | .error e => .error e
    | .ok y =>
      match mapME f xs with
      | .error e => .error e
      | .ok ys => .ok (y :: ys)

/-- Keep the first occurrence of each key, as
`drop_duplicates(subset=...)` does; `seen` carries the keys met so far. -/
def dedupByAux {α β : Type} [DecidableEq β] (k : α → β) (seen : List β) : List α → List α
  | [] => []
  | x :: xs =>
    if k x ∈ seen then dedupByAux k seen xs
    else x :: dedupByAux k (k x :: seen) xs

/-- Model of `drop_duplicates` on a derived key, keeping first occurrences. -/
def dedupBy {α β : Type} [DecidableEq β] (k : α → β) (l : List α) : List α :=
  dedupByAux k [] l

/-- Model of `left.merge(lookup, how="left")`: each left row is emitted once
per matching lookup row, or once with no attachment when nothing matches.
This reproduces the pandas semantics in which duplicate lookup keys would
duplicate left rows. -/
def leftMerge {α β : Type} (ts : List α) (lookup : List β) (mtc : α → β → Bool) :
    List (α × Option β) :=
  ts.flatMap (fun t =>
    match lookup.filter (mtc t) with
    | [] => [(t, none)]
    | ms => ms.map (fun m => (t, some m)))

/-- One row of a quarterly lookup produced by `load_fuel_quarterly` or
`load_cpi_quarterly`: integer Year and quarter plus the aggregated value
column (`jet_fuel_price_gulf` resp. `cpi_index`), which is NaN when no
observation of the group parsed numerically. -/
structure QEntry where
  year : ℤ
  quarter : ℕ
  val : Option ℚ
  deriving DecidableEq, Repr

/-- A fuel or cost-index CSV: column names and rows of raw text cells
aligned with them. -/
structure FuelInput where
  cols : List String
  rows : List (List String)
  deriving DecidableEq, Repr

/-- Position of column `c` in the column list. -/
def colIdx (c : String) : List String → Option ℕ
  | [] => none
  | c0 :: rest => if c0 = c then some 0 else (colIdx c rest).map (· + 1)

/-- Cell of `row` under column `c`, mirroring `df[c]` for a row. -/
def getCell (cols : List String) (row : List String) (c : String) : String :=
  match colIdx c cols with
  | some i => row.getD i ""
  | none => ""

/-- Model of `[c for c in df.columns if c != "observation_date"][0]`
returning `none` when no such column exists. -/
def firstNonDate (cols : List String) : Option String :=
  cols.find? (fun c => c != "observation_date")

/-- Time key of a row: `add_year_quarter` derives Year and quarter from the
parsed observation date, absent when the date does not parse. -/
def fuelKey (cols : List String) (row : List String) : Option (ℤ × ℕ) :=
  (pyDate? (getCell cols row "observation_date")).map (fun ym => (ym.1, quarterOf ym.2))

/-- Mean of the parseable observations of a group, NaN when none parse:
the `skipna` mean that `groupby(...).mean()` computes. -/
def meanOfValid (vals : List (Option ℚ)) : Option ℚ :=
  let v := vals.filterMap id
  if v.isEmpty then none else some (v.sum / (v.length : ℚ))

/-- Sort key for group keys: pandas `groupby(sort=True)` orders the groups
ascending with the NaN key last. -/
def groupKeyLe (a b : Option (ℤ × ℕ)) : Prop :=
  match a, b with
  | _, none => True
  | none, some _ => False
  | some x, some y => x.1 < y.1 ∨ (x.1 = y.1 ∧ x.2 ≤ y.2)

instance : DecidableRel groupKeyLe := fun a b => by
  rcases a with _ | x <;> rcases b with _ | y <;> simp only [groupKeyLe] <;> infer_instance

/-- Model of `df.groupby(["Year", "quarter"], dropna=False)[val].mean()`
followed by `reset_index`, the `notna` filter on both keys and the casts to
int: one entry per distinct present (Year, quarter) key, carrying the mean
of the parseable values of that group. -/
def aggQuarterly (prs : List (Option (ℤ × ℕ) × Option ℚ)) : List QEntry :=
  let keys := List.insertionSort groupKeyLe (dedupBy id (prs.map Prod.fst))
  keys.filterMap (fun k =>
    k.map (fun yq =>
      { year := yq.1, quarter := yq.2
        val := meanOfValid ((prs.filter (fun p => p.1 == k)).map Prod.snd) }))

/-- Key and coerced value of each row of a fuel or cost-index file, for the
value column `vc`. -/
def fuelPairs (f : FuelInput) (vc : String) : List (Option (ℤ × ℕ) × Option ℚ) :=
  f.rows.map (fun r => (fuelKey f.cols r, toNumeric (.strV (getCell f.cols r vc))))

/-- Model of `load_fuel_quarterly` (lines 144-157): require the
`observation_date` column, pick the first other column as the value column,
derive quarterly means. -/
def load_fuel_quarterly (f : FuelInput) : Except Err (List QEntry) :=
  if "observation_date" ∈ f.cols then
    match firstNonDate f.cols with
    | none => .error .noValueColumn
    | some vc => .ok (aggQuarterly (fuelPairs f vc))
  else .error .fuelMissingDate

/-- Model of `load_cpi_quarterly` (lines 161-174): identical pipeline with
its own error message and output column name. -/
def load_cpi_quarterly (f : FuelInput) : Except Err (List QEntry) :=
  if "observation_date" ∈ f.cols then
    match firstNonDate f.cols with
    | none => .error .noValueColumn
    | some vc => .ok (aggQuarterly (fuelPairs f vc))
  else .error .cpiMissingDate

/-- One row of the tourism lookup built by `load_overseas_visitors`. -/
structure TourEntry where
  state_name : String
  state_abbr : Option String
  overseas_share_2024 : Option ℚ
  overseas_visitation_2024 : Option ℤ
  overseas_change_2024_vs_2023 : Option ℚ
  overseas_share_2023 : Option ℚ
  overseas_visitation_2023 : Option ℤ
  deriving DecidableEq, Repr

/-- Record built from one admitted tourism data row (lines 204-214).  The
code strips `row[1]` and then removes leading whitespace again, which is the
same as a single strip. -/
def tourRecord (row : List String) : TourEntry :=
  let nm := pyStrip (row.getD 1 "")
  { state_name := nm
    state_abbr := stateAbbr? nm
    overseas_share_2024 := pct (row.getD 2 "")
    overseas_visitation_2024 := num_k (row.getD 3 "")
    overseas_change_2024_vs_2023 := pct (row.getD 4 "")
    overseas_share_2023 := pct (row.getD 5 "")
    overseas_visitation_2023 := num_k (row.getD 6 "") }

/-- Model of `load_overseas_visitors` (lines 178-218) on the list of lines
of the file: keep the ranked data lines, parse each as CSV, skip records
with fewer than 7 fields, build entries, drop unresolved state
abbreviations, and deduplicate by abbreviation keeping first occurrences.
An empty record set would make the pandas column selection raise, which the
model reports as `tourismEmptyFrame`. -/
def load_overseas_visitors (lines : List String) : Except Err (List TourEntry) :=
  let dataLines := lines.filter isDataLine
  if dataLines.isEmpty then .error .tourismNoDataRows
  else
    let rows := (dataLines.map csvSplit).filter (fun r => 7 ≤ r.length)
    let recs := rows.map tourRecord
    if recs.isEmpty then .error .tourismEmptyFrame
    else .ok (dedupBy TourEntry.state_abbr (recs.filter (fun e => e.state_abbr.isSome)))

/-- The required master columns (lines 107-108). -/
def requiredCols : List String :=
  ["Year", "quarter", "citymarketid_1", "citymarketid_2", "city1", "city2",
   "nsmiles", "passengers", "fare"]

/-- One raw row of the master ticket file.  The city-market identifiers are
typed as integers, which is how `read_csv` types those columns in the master
dataset and the only typing under which the final sort is defined; the cells
the code cleans are kept as raw `PyVal`s.  Column presence is tracked by the
`cols` field of `MasterInput`. -/
structure MasterRaw where
  year : PyVal
  quarter : PyVal
  cmid1 : ℤ
  cmid2 : ℤ
  city1 : PyVal
  city2 : PyVal
  nsmiles : PyVal
  passengers : PyVal
  fare : PyVal
  fare_lg : PyVal
  fare_low : PyVal
  large_ms : PyVal
  lf_ms : PyVal
  carrier_lg : PyVal
  carrier_low : PyVal
  deriving DecidableEq, Repr

/-- The master ticket file: its column list and rows. -/
structure MasterInput where
  cols : List String
  rows : List MasterRaw
  deriving DecidableEq, Repr

/-- One cleaned ticket row as produced by `load_clean_tickets`.  Optional
columns are `Option (Option _)`: the outer level is column presence, the
inner level is NaN. -/
structure Ticket where
  year : Option ℤ
  quarter : Option ℤ
  cmid1 : ℤ
  cmid2 : ℤ
  city1 : PyVal
  city2 : PyVal
  nsmiles : Option ℚ
  passengers : Option ℚ
  fare : Option ℚ
  fare_lg : Option (Option ℚ)
  fare_low : Option (Option ℚ)
  large_ms : Option (Option ℚ)
  lf_ms : Option (Option ℚ)
  carrier_lg : Option PyVal
  carrier_low : Option PyVal
  city1_name : Option String
  city1_state : Option String
  city2_name : Option String
  city2_state : Option String
  deriving DecidableEq, Repr

/-- Model of `astype("Int64")` after a numeric coercion: NaN stays missing,
integral values become integers, a non-integral value raises. -/
def toInt64Cast : Option ℚ → Except Err (Option ℤ)
  | none => .ok none
  | some q => if q.den = 1 then .ok (some q.num) else .error .intCastError

/-- The per-row cleaning of `load_clean_tickets` (lines 113-128): coerce
Year and quarter to nullable integers, distance and shares numerically,
passengers and fares through the scalar normalizers, and decompose the two
city fields. -/
def ticketOfRaw (cols : List String) (r : MasterRaw) : Except Err Ticket :=
  match toInt64Cast (toNumeric r.year), toInt64Cast (toNumeric r.quarter) with
  | .error e, _ => .error e
  | .ok _, .error e => .error e
  | .ok y, .ok q =>
  let c1 := extract_city_state r.city1
  let c2 := extract_city_state r.city2
  .ok { year := y, quarter := q, cmid1 := r.cmid1, cmid2 := r.cmid2,
        city1 := r.city1, city2 := r.city2,
        nsmiles := toNumeric r.nsmiles,
        passengers := parse_number r.passengers,
        fare := parse_money r.fare,
        fare_lg := if "fare_lg" ∈ cols then some (parse_money r.fare_lg) else none,
        fare_low := if "fare_low" ∈ cols then some (parse_money r.fare_low) else none,
        large_ms := if "large_ms" ∈ cols then some (toNumeric r.large_ms) else none,
        lf_ms := if "lf_ms" ∈ cols then some (toNumeric r.lf_ms) else none,
        carrier_lg := if "carrier_lg" ∈ cols then some r.carrier_lg else none,
        carrier_low := if "carrier_low" ∈ cols then some r.carrier_low else none,
        city1_name := c1.1, city1_state := c1.2,
        city2_name := c2.1, city2_state := c2.2 }

/-- The row-admission filter (lines 130-132): Year, quarter, fare and
nsmiles must all be present. -/
def admitTicket (t : Ticket) : Bool :=
  t.year.isSome && t.quarter.isSome && t.fare.isSome && t.nsmiles.isSome

/-- The value tuple compared by `drop_duplicates` on the grain columns. -/
structure DedupKey where
  year : Option ℤ
  quarter : Option ℤ
  cmid1 : ℤ
  cmid2 : ℤ
  carrier_lg : Option PyVal
  carrier_low : Option PyVal
  deriving DecidableEq, Repr

/-- The deduplication key (lines 134-138).  After the schema check the four
required key columns are always present, so the `len(existing) >= 4` guard
always holds; a carrier column that is absent contributes the constant
`none` to every key, exactly as its absence from `existing` does. -/
def dedupKey (t : Ticket) : DedupKey :=
  ⟨t.year, t.quarter, t.cmid1, t.cmid2, t.carrier_lg, t.carrier_low⟩

/-- Model of `load_clean_tickets` (lines 104-140): schema validation, per-row
cleaning, strict row admission, then deduplication on the grain. -/
def load_clean_tickets (m : MasterInput) : Except Err (List Ticket) :=
  let missing := requiredCols.filter (fun c => !(m.cols.contains c))
  if missing.isEmpty then
    match mapME (ticketOfRaw m.cols) m.rows with
    | .error e => .error e
    | .ok ts => .ok (dedupBy dedupKey (ts.filter admitTicket))
  else .error (.ticketsMissing missing)

/-- One row of the compiled table.  The two tourism joins attach the whole
matched lookup entry, which carries exactly the columns the code prefixes
with `orig_` and `dest_`.  The outer `Option` on joined and derived columns
is column presence (absent when the auxiliary source is absent), the inner
one is NaN. -/
structure Compiled where
  t : Ticket
  jet_fuel_price_gulf : Option (Option ℚ)
  cpi_index : Option (Option ℚ)
  orig_tour : Option (Option TourEntry)
  dest_tour : Option (Option TourEntry)
  fare_per_mile : Option ℚ
  dominance_bucket : Option (Option String)
  lcc_bucket : Option (Option String)
  deriving DecidableEq, Repr

/-- Join predicate of the quarterly merges: equality on (Year, quarter). -/
def matchYQ (t : Ticket) (e : QEntry) : Bool :=
  t.year == some e.year && t.quarter == some (e.quarter : ℤ)

/-- Model of `pd.cut(x, bins=[-inf, lo, hi, inf], labels=[l1, l2, l3])` with
the default right-closed intervals: NaN stays NaN, `x ≤ lo` gets `l1`,
`lo < x ≤ hi` gets `l2`, `hi < x` gets `l3`. -/
def pdCut3 (lo hi : ℚ) (l1 l2 l3 : String) : Option ℚ → Option String
  | none => none
  | some v => some (if v ≤ lo then l1 else if v ≤ hi then l2 else l3)

/-- The derived `fare_per_mile = fare / nsmiles` (line 252).  Division of a
present fare by a zero distance gives a non-finite float, modelled as the
absent value; no claim depends on that row. -/
def farePerMile (t : Ticket) : Option ℚ :=
  match t.fare, t.nsmiles with
  | some f, some n => if n = 0 then none else some (f / n)
  | _, _ => none

/-- Row state after the fuel merge: ticket plus the possibly-absent
`jet_fuel_price_gulf` column. -/
abbrev RowS1 := Ticket × Option (Option ℚ)

/-- Row state after the cost-index merge. -/
abbrev RowS2 := RowS1 × Option (Option ℚ)

/-- Row state after the two tourism merges. -/
abbrev RowS3 := (RowS2 × Option (Option TourEntry)) × Option (Option TourEntry)

/-- The fuel merge step of `compile_dataset` (lines 232-233): skipped when
the source is absent, otherwise a left join on (Year, quarter). -/
def fuelStage (tickets : List Ticket) : Option FuelInput → Except Err (List RowS1)
  | none => .ok (tickets.map (fun t => (t, none)))
  | some f =>
    (load_fuel_quarterly f).map (fun lk =>
      (leftMerge tickets lk matchYQ).map (fun p => (p.1, some (p.2.bind QEntry.val))))

/-- The cost-index merge step (lines 235-236). -/
def cpiStage (s1 : List RowS1) : Option FuelInput → Except Err (List RowS2)
  | none => .ok (s1.map (fun r => (r, none)))
  | some f =>
    (load_cpi_quarterly f).map (fun lk =>
      (leftMerge s1 lk (fun r e => matchYQ r.1 e)).map (fun p => (p.1, some (p.2.bind QEntry.val))))

/-- The two tourism merge steps (lines 238-249): build the lookup once, then
left-join it on the origin state and on the destination state. -/
def tourStage (s2 : List RowS2) : Option (List String) → Except Err (List RowS3)
  | none => .ok (s2.map (fun r => ((r, none), none)))
  | some lines =>
    (load_overseas_visitors lines).map (fun ov =>
      (leftMerge
        ((leftMerge s2 ov (fun r e => r.1.1.city1_state == e.state_abbr)).map
          (fun p => (p.1, some p.2)))
        ov (fun r e => r.1.1.1.city2_state == e.state_abbr)).map
        (fun p => (p.1, some p.2)))

/-- Assemble one output row: attach the joined columns and derive
`fare_per_mile`, `dominance_bucket` (thresholds 0.4 and 0.7) and
`lcc_bucket` (thresholds 0.15 and 0.35), each bucket only when its share
column exists (lines 251-266). -/
def finishRow (r : RowS3) : Compiled :=
  let t := r.1.1.1.1
  { t
    jet_fuel_price_gulf := r.1.1.1.2
    cpi_index := r.1.1.2
    orig_tour := r.1.2
    dest_tour := r.2
    fare_per_mile := farePerMile t
    dominance_bucket := t.large_ms.map (pdCut3 0.4 0.7 "high_competition" "moderate" "dominated")
    lcc_bucket := t.lf_ms.map (pdCut3 0.15 0.35 "low_lcc" "medium_lcc" "high_lcc") }

/-- Rank used to sort a nullable sort key: pandas `sort_values` puts NaN
last. -/
def optRank (o : Option ℤ) : ℕ := if o.isSome then 0 else 1

/-- Integer value of a nullable sort key, irrelevant when absent. -/
def optVal (o : Option ℤ) : ℤ := o.getD 0

/-- The lexicographic sort key of line 269:
(Year, quarter, citymarketid_1, citymarketid_2) ascending, absent keys
last. -/
def sortKey (c : Compiled) :
    Lex (ℕ × Lex (ℤ × Lex (ℕ × Lex (ℤ × Lex (ℤ × ℤ))))) :=
  toLex (optRank c.t.year, toLex (optVal c.t.year, toLex (optRank c.t.quarter,
    toLex (optVal c.t.quarter, toLex (c.t.cmid1, c.t.cmid2)))))

/-- Row order of the final `sort_values`. -/
def compiledLe (a b : Compiled) : Prop := sortKey a ≤ sortKey b

instance : DecidableRel compiledLe := fun a b =>
  inferInstanceAs (Decidable (sortKey a ≤ sortKey b))

instance : IsTotal Compiled compiledLe := ⟨fun a b => le_total (sortKey a) (sortKey b)⟩

instance : IsTrans Compiled compiledLe := ⟨fun _ _ _ => le_trans⟩

/-- Model of `compile_dataset` (lines 222-270): load the master, run the
three optional merge stages, derive the modelling features, and sort.  The
final `reset_index(drop=True)` is the identity on the list representation. -/
def compile_dataset (m : MasterInput) (fuel : Option FuelInput) (cpi : Option FuelInput)
    (tourism : Option (List String)) : Except Err (List Compiled) :=
  match load_clean_tickets m with
  | .error e => .error e
  | .ok tickets =>
    match fuelStage tickets fuel with
    | .error e => .error e
    | .ok s1 =>
      match cpiStage s1 cpi with
      | .error e => .error e
      | .ok s2 =>
        match tourStage s2 tourism with
        | .error e => .error e
        | .ok s3 => .ok (List.insertionSort compiledLe (s3.map finishRow))

theorem dedupByAux_subset {α β : Type} [DecidableEq β] (k : α → β) :
    ∀ (seen : List β) (l : List α) (x : α), x ∈ dedupByAux k seen l → x ∈ l := by
  intro seen l
  induction l generalizing seen with
  | nil => intro x hx; simp [dedupByAux] at hx
  | cons a l ih =>
    intro x hx
    simp only [dedupByAux] at hx
    by_cases hm : k a ∈ seen
    · simp only [if_pos hm] at hx
      exact List.mem_cons_of_mem a (ih seen x hx)
    · simp only [if_neg hm, List.mem_cons] at hx
      rcases hx with rfl | hx
      · exact List.mem_cons_self x l
      · exact List.mem_cons_of_mem a (ih (k a :: seen) x hx)

theorem dedupByAux_seen_disjoint {α β : Type} [DecidableEq β] (k : α → β) :
    ∀ (seen : List β) (l : List α) (b : β), b ∈ seen → b ∉ (dedupByAux k seen l).map k := by
  intro seen l
  induction l generalizing seen with
  | nil => intro b _ hb; simp [dedupByAux] at hb
  | cons a l ih =>
    intro b hb hmem
    simp only [dedupByAux] at hmem
    by_cases hm : k a ∈ seen
    · rw [if_pos hm] at hmem
      exact ih seen b hb hmem
    · rw [if_neg hm] at hmem
      simp only [List.map_cons, List.mem_cons] at hmem
      rcases hmem with rfl | hmem
      · exact hm hb
      · exact ih (k a :: seen) b (List.mem_cons_of_mem _ hb) hmem

theorem dedupByAux_keys_nodup {α β : Type} [DecidableEq β] (k : α → β) :
    ∀ (seen : List β) (l : List α), ((dedupByAux k seen l).map k).Nodup := by
  intro seen l
  induction l generalizing seen with
  | nil => simp [dedupByAux]
  | cons a l ih =>
    simp only [dedupByAux]
    by_cases hm : k a ∈ seen
    · rw [if_pos hm]; exact ih seen
    · rw [if_neg hm]
      simp only [List.map_cons, List.nodup_cons]
      exact ⟨dedupByAux_seen_disjoint k (k a :: seen) l (k a) (List.mem_cons_self _ _),
             ih (k a :: seen)⟩

theorem dedupBy_keys_nodup {α β : Type} [DecidableEq β] (k : α → β) (l : List α) :
    ((dedupBy k l).map k).Nodup :=
  dedupByAux_keys_nodup k [] l

theorem dedupBy_subset {α β : Type} [DecidableEq β] (k : α → β) (l : List α) (x : α)
    (hx : x ∈ dedupBy k l) : x ∈ l :=
  dedupByAux_subset k [] l x hx

theorem filter_matchkey_len_le_one {β γ : Type} [DecidableEq γ] (key : β → γ) :
    ∀ (lookup : List β) (p : β → Bool),
      ((lookup.map key).Nodup) →
      (∀ b1 b2, p b1 = true → p b2 = true → key b1 = key b2) →
      (lookup.filter p).length ≤ 1 := by
  intro lookup
  induction lookup with
  | nil => intro p _ _; simp
  | cons b l ih =>
    intro p hnd hp
    simp only [List.map_cons, List.nodup_cons] at hnd
    by_cases hb : p b = true
    · rw [List.filter_cons_of_pos hb]
      have hnil : l.filter p = [] := by
        by_contra hne
        obtain ⟨c, hc⟩ := List.exists_mem_of_ne_nil _ hne
        have hcmem := (List.mem_filter).mp hc
        have := hp b c hb hcmem.2
        exact hnd.1 (this ▸ List.mem_map_of_mem key hcmem.1)
      simp [hnil]
    · rw [List.filter_cons_of_neg (by simpa using hb)]
      exact ih p hnd.2 hp

theorem leftMerge_length {α β : Type} (ts : List α) (lookup : List β) (mtc : α → β → Bool)
    (h : ∀ t, (lookup.filter (mtc t)).length ≤ 1) :
    (leftMerge ts lookup mtc).length = ts.length := by
  induction ts with
  | nil => simp [leftMerge]
  | cons t ts ih =>
    simp only [leftMerge, List.flatMap_cons] at ih ⊢
    rw [List.length_append, ih]
    have ht := h t
    rcases hl : lookup.filter (mtc t) with _ | ⟨m, ms⟩
    · simp only [List.length_cons, List.length_nil]
      omega
    · rw [hl] at ht
      simp only [List.length_cons] at ht
      cases ms with
      | nil =>
        simp only [List.map_cons, List.map_nil, List.length_cons, List.length_nil]
        omega
      | cons m2 ms2 =>
        simp only [List.length_cons] at ht
        omega

theorem mapME_ok_mem {α β : Type} (f : α → Except Err β) :
    ∀ (l : List α) (l2 : List β), mapME f l = .ok l2 → ∀ y ∈ l2, ∃ x ∈ l, f x = .ok y := by
  intro l
  induction l with
  | nil =>
    intro l2 h y hy
    simp only [mapME, Except.ok.injEq] at h
    subst h; simp at hy
  | cons a l ih =>
    intro l2 h y hy
    simp only [mapME] at h
    rcases ha : f a with e | b <;> rw [ha] at h
    · exact absurd h (by simp)
    · rcases hl : mapME f l with e | bs <;> rw [hl] at h
      · exact absurd h (by simp)
      · simp only [Except.ok.injEq] at h
        subst h
        rcases List.mem_cons.mp hy with rfl | hy2
        · exact ⟨a, List.mem_cons_self _ _, ha⟩
        · obtain ⟨x, hx, hfx⟩ := ih bs hl y hy2
          exact ⟨x, List.mem_cons_of_mem _ hx, hfx⟩

theorem mapME_error_mem {α β : Type} (f : α → Except Err β) :
    ∀ (l : List α) (e : Err), mapME f l = .error e → ∃ x ∈ l, f x = .error e := by
  intro l
  induction l with
  | nil => intro e h; simp [mapME] at h
  | cons a l ih =>
    intro e h
    simp only [mapME] at h
    rcases ha : f a with e2 | b <;> rw [ha] at h
    · simp only [Except.bind, Except.error.injEq] at h
      exact ⟨a, List.mem_cons_self _ _, h ▸ ha⟩
    · rcases hl : mapME f l with e2 | bs <;> rw [hl] at h
      · simp only [Except.bind, Except.error.injEq] at h
        obtain ⟨x, hx, hfx⟩ := ih e2 hl
        exact ⟨x, List.mem_cons_of_mem _ hx, h ▸ hfx⟩
      · simp [Except.bind] at h

theorem toInt64Cast_error {v : Option ℚ} {e : Err} (h : toInt64Cast v = .error e) :
    e = .intCastError := by
  rcases v with _ | q
  · simp [toInt64Cast] at h
  · rw [toInt64Cast] at h
    by_cases hd : q.den = 1
    · rw [if_pos hd] at h
      exact absurd h (by simp)
    · rw [if_neg hd] at h
      simpa using h.symm

theorem ticketOfRaw_error {cols : List String} {r : MasterRaw} {e : Err}
    (h : ticketOfRaw cols r = .error e) : e = .intCastError := by
  unfold ticketOfRaw at h
  rcases hy : toInt64Cast (toNumeric r.year) with ey | y <;> rw [hy] at h
  · simp only [Except.error.injEq] at h
    exact h ▸ toInt64Cast_error hy
  · rcases hq : toInt64Cast (toNumeric r.quarter) with eq2 | q <;> rw [hq] at h
    · simp only [Except.error.injEq] at h
      exact h ▸ toInt64Cast_error hq
    · simp at h

theorem aggQuarterly_keys_nodup (prs : List (Option (ℤ × ℕ) × Option ℚ)) :
    ((aggQuarterly prs).map (fun e => (e.year, e.quarter))).Nodup := by
  unfold aggQuarterly
  have hdd : (dedupBy (id : Option (ℤ × ℕ) → Option (ℤ × ℕ)) (prs.map Prod.fst)).Nodup := by
    have := dedupBy_keys_nodup (id : Option (ℤ × ℕ) → Option (ℤ × ℕ)) (prs.map Prod.fst)
    simpa using this
  have hsort :
      (List.insertionSort groupKeyLe (dedupBy id (prs.map Prod.fst))).Nodup :=
    ((List.perm_insertionSort groupKeyLe (dedupBy id (prs.map Prod.fst))).nodup_iff).mpr hdd
  rw [List.map_filterMap]
  have heq :
      (fun k : Option (ℤ × ℕ) =>
        (k.map (fun yq => QEntry.mk yq.1 yq.2
          (meanOfValid ((prs.filter (fun p => p.1 == k)).map Prod.snd)))).map
            (fun e => (e.year, e.quarter)))
      = fun k : Option (ℤ × ℕ) => k := by
    funext k
    rcases k with _ | yq
    · rfl
    · rfl
  rw [heq]
  exact hsort.filterMap (fun a b c h1 h2 => by
    simp only [Option.mem_def, id] at h1 h2
    rw [h1, h2])

theorem load_fuel_quarterly_ok {f : FuelInput} {lk : List QEntry}
    (h : load_fuel_quarterly f = .ok lk) :
    ∃ vc, firstNonDate f.cols = some vc ∧ lk = aggQuarterly (fuelPairs f vc) := by
  unfold load_fuel_quarterly at h
  split at h
  · rcases hvc : firstNonDate f.cols with _ | vc <;> rw [hvc] at h
    · simp at h
    · simp only [Except.ok.injEq] at h
      exact ⟨vc, rfl, h.symm⟩
  · simp at h

theorem load_cpi_quarterly_ok {f : FuelInput} {lk : List QEntry}
    (h : load_cpi_quarterly f = .ok lk) :
    ∃ vc, firstNonDate f.cols = some vc ∧ lk = aggQuarterly (fuelPairs f vc) := by
  unfold load_cpi_quarterly at h
  split at h
  · rcases hvc : firstNonDate f.cols with _ | vc <;> rw [hvc] at h
    · simp at h
    · simp only [Except.ok.injEq] at h
      exact ⟨vc, rfl, h.symm⟩
  · simp at h

theorem load_overseas_visitors_ok {lines : List String} {ov : List TourEntry}
    (h : load_overseas_visitors lines = .ok ov) :
    (ov.map TourEntry.state_abbr).Nodup ∧
      ∀ e ∈ ov,
        e.state_abbr.isSome = true ∧
        (∃ row, e = tourRecord row ∧ 7 ≤ row.length ∧
          row ∈ (lines.filter isDataLine).map csvSplit) := by
  simp only [load_overseas_visitors] at h
  split at h
  · simp at h
  · split at h
    · simp at h
    · simp only [Except.ok.injEq] at h
      subst h
      refine ⟨dedupBy_keys_nodup _ _, ?_⟩
      intro e he
      have hin := dedupBy_subset _ _ _ he
      have hmem := List.mem_filter.mp hin
      obtain ⟨row, hrow, hrec⟩ := List.mem_map.mp hmem.1
      have hlen := (List.mem_filter.mp hrow).2
      exact ⟨hmem.2, row, hrec.symm, by simpa using hlen,
             (List.mem_filter.mp hrow).1⟩

theorem matchYQ_key_eq {t : Ticket} {e1 e2 : QEntry}
    (h1 : matchYQ t e1 = true) (h2 : matchYQ t e2 = true) :
    (e1.year, e1.quarter) = (e2.year, e2.quarter) := by
  unfold matchYQ at h1 h2
  simp only [Bool.and_eq_true, beq_iff_eq] at h1 h2
  have hy : e1.year = e2.year := by
    have := h1.1.symm.trans h2.1
    simpa using this
  have hq : (e1.quarter : ℤ) = (e2.quarter : ℤ) := by
    have := h1.2.symm.trans h2.2
    simpa using this
  have hq2 : e1.quarter = e2.quarter := Int.ofNat_inj.mp hq
  rw [hy, hq2]

theorem fuelStage_length {tickets : List Ticket} {fo : Option FuelInput} {s1 : List RowS1}
    (h : fuelStage tickets fo = .ok s1) : s1.length = tickets.length := by
  rcases fo with _ | f
  · simp only [fuelStage, Except.ok.injEq] at h
    rw [← h, List.length_map]
  · simp only [fuelStage] at h
    rcases hlk : load_fuel_quarterly f with e | lk <;> rw [hlk] at h
    · simp [Except.map] at h
    · simp only [Except.map, Except.ok.injEq] at h
      obtain ⟨vc, _, hagg⟩ := load_fuel_quarterly_ok hlk
      have hnd : (lk.map (fun e => (e.year, e.quarter))).Nodup := by
        rw [hagg]; exact aggQuarterly_keys_nodup _
      rw [← h, List.length_map]
      exact leftMerge_length tickets lk matchYQ (fun t =>
        filter_matchkey_len_le_one (fun e => (e.year, e.quarter)) lk (matchYQ t) hnd
          (fun b1 b2 hb1 hb2 => matchYQ_key_eq hb1 hb2))

theorem cpiStage_length {s1 : List RowS1} {fo : Option FuelInput} {s2 : List RowS2}
    (h : cpiStage s1 fo = .ok s2) : s2.length = s1.length := by
  rcases fo with _ | f
  · simp only [cpiStage, Except.ok.injEq] at h
    rw [← h, List.length_map]
  · simp only [cpiStage] at h
    rcases hlk : load_cpi_quarterly f with e | lk <;> rw [hlk] at h
    · simp [Except.map] at h
    · simp only [Except.map, Except.ok.injEq] at h
      obtain ⟨vc, _, hagg⟩ := load_cpi_quarterly_ok hlk
      have hnd : (lk.map (fun e => (e.year, e.quarter))).Nodup := by
        rw [hagg]; exact aggQuarterly_keys_nodup _
      rw [← h, List.length_map]
      exact leftMerge_length s1 lk _ (fun r =>
        filter_matchkey_len_le_one (fun e => (e.year, e.quarter)) lk _ hnd
          (fun b1 b2 hb1 hb2 => matchYQ_key_eq hb1 hb2))

theorem stateMatch_key_eq {s : Option String} {e1 e2 : TourEntry}
    (h1 : (s == e1.state_abbr) = true) (h2 : (s == e2.state_abbr) = true) :
    e1.state_abbr = e2.state_abbr := by
  simp only [beq_iff_eq] at h1 h2
  rw [← h1, ← h2]

theorem tourStage_length {s2 : List RowS2} {tsrc : Option (List String)} {s3 : List RowS3}
    (h : tourStage s2 tsrc = .ok s3) : s3.length = s2.length := by
  rcases tsrc with _ | lines
  · simp only [tourStage, Except.ok.injEq] at h
    rw [← h, List.length_map]
  · simp only [tourStage] at h
    rcases hov : load_overseas_visitors lines with e | ov <;> rw [hov] at h
    · simp [Except.map] at h
    · simp only [Except.map, Except.ok.injEq] at h
      have hnd := (load_overseas_visitors_ok hov).1
      have huniq : ∀ s : Option String,
          (ov.filter (fun e => s == e.state_abbr)).length ≤ 1 := fun s =>
        filter_matchkey_len_le_one TourEntry.state_abbr ov (fun e => s == e.state_abbr) hnd
          (fun b1 b2 hb1 hb2 => stateMatch_key_eq hb1 hb2)
      have len2 := leftMerge_length
        ((leftMerge s2 ov (fun (r : RowS2) e => r.1.1.city1_state == e.state_abbr)).map
          (fun p => (p.1, some p.2))) ov
        (fun (r : RowS2 × Option (Option TourEntry)) e => r.1.1.1.city2_state == e.state_abbr)
        (fun r => huniq _)
      have len1 := leftMerge_length s2 ov
        (fun (r : RowS2) e => r.1.1.city1_state == e.state_abbr) (fun r => huniq _)
      rw [← h, List.length_map, len2, List.length_map, len1]

theorem compile_dataset_ok {m : MasterInput} {fuel cpi : Option FuelInput}
    {tourism : Option (List String)} {out : List Compiled}
    (h : compile_dataset m fuel cpi tourism = .ok out) :
    ∃ ts s1 s2 s3,
      load_clean_tickets m = .ok ts ∧ fuelStage ts fuel = .ok s1 ∧
      cpiStage s1 cpi = .ok s2 ∧ tourStage s2 tourism = .ok s3 ∧
      out = List.insertionSort compiledLe (s3.map finishRow) := by
  unfold compile_dataset at h
  split at h
  · exact absurd h (by simp)
  rename_i tickets heq
  split at h
  · exact absurd h (by simp)
  rename_i s1 heq1
  split at h
  · exact absurd h (by simp)
  rename_i s2 heq2
  split at h
  · exact absurd h (by simp)
  rename_i s3 heq3
  simp only [Except.ok.injEq] at h
  exact ⟨tickets, s1, s2, s3, heq, heq1, heq2, heq3, h.symm⟩

theorem load_clean_tickets_ok {m : MasterInput} {ts : List Ticket}
    (h : load_clean_tickets m = .ok ts) :
    (requiredCols.filter (fun c => !(m.cols.contains c))).isEmpty = true ∧
    ∃ raws, mapME (ticketOfRaw m.cols) m.rows = .ok raws ∧
      ts = dedupBy dedupKey (raws.filter admitTicket) := by
  simp only [load_clean_tickets] at h
  split at h
  · rename_i hcond
    split at h
    · exact absurd h (by simp)
    rename_i raws heq
    simp only [Except.ok.injEq] at h
    exact ⟨hcond, raws, heq, h.symm⟩
  · exact absurd h (by simp)

theorem aggQuarterly_mem {prs : List (Option (ℤ × ℕ) × Option ℚ)} {e : QEntry}
    (he : e ∈ aggQuarterly prs) :
    some (e.year, e.quarter) ∈ prs.map Prod.fst ∧
    e.val = meanOfValid
      ((prs.filter (fun p => p.1 == some (e.year, e.quarter))).map Prod.snd) := by
  unfold aggQuarterly at he
  obtain ⟨k, hk, hfk⟩ := List.mem_filterMap.mp he
  rcases k with _ | yq
  · simp at hfk
  · simp only [Option.map_some'] at hfk
    injection hfk with hfk
    subst hfk
    have hk2 : some yq ∈ dedupBy id (prs.map Prod.fst) :=
      ((List.perm_insertionSort groupKeyLe _).mem_iff).mp hk
    have hk3 := dedupBy_subset _ _ _ hk2
    constructor
    · simpa using hk3
    · rfl

/-- C1: for every master input and every subset of the three auxiliary
inputs, the row count of the table returned by `compile_dataset` equals the
row count of `load_clean_tickets` on the same master input: the left join
against each quarterly lookup and against the state tourism lookup neither
drops nor duplicates any master row, because each lookup carries at most
one row per join key. -/
theorem c1_compile_preserves_row_count (m : MasterInput) (fuel cpi : Option FuelInput)
    (tourism : Option (List String)) (ts : List Ticket) (out : List Compiled)
    (hts : load_clean_tickets m = .ok ts)
    (hout : compile_dataset m fuel cpi tourism = .ok out) :
    out.length = ts.length := by
  obtain ⟨ts2, s1, s2, s3, hts2, h1, h2, h3, hsort⟩ := compile_dataset_ok hout
  rw [hts] at hts2
  injection hts2 with hts2
  subst hts2
  rw [hsort, (List.perm_insertionSort compiledLe _).length_eq, List.length_map,
    tourStage_length h3, cpiStage_length h2, fuelStage_length h1]

/-- A master row for the concrete compiler runs. -/
def sampleRow : MasterRaw :=
  { year := .intV 2023, quarter := .intV 1, cmid1 := 100, cmid2 := 200,
    city1 := .strV "Miami, FL (Metropolitan Area)", city2 := .strV "Dallas, TX",
    nsmiles := .intV 1000, passengers := .strV "1,200", fare := .strV "$250.00",
    fare_lg := .nanV, fare_low := .nanV, large_ms := .nanV, lf_ms := .nanV,
    carrier_lg := .nanV, carrier_low := .nanV }

/-- Concrete master input for the C1 witness: two distinct route-quarters. -/
def c1m : MasterInput :=
  ⟨requiredCols, [sampleRow, { sampleRow with quarter := .intV 2, fare := .strV "$99.50" }]⟩

/-- Concrete fuel input for the C1 witness. -/
def c1fuel : FuelInput :=
  ⟨["observation_date", "WJFUELUSGULF"], [["2023-01-06", "3.0"], ["2023-02-10", "5.0"]]⟩

/-- Concrete tourism input for the C1 witness. -/
def c1tour : List String :=
  ["2024 Top States Visited",
   "1,Florida,10%,\"1,000\",5%,9%,900",
   "2,Texas,8%,800,4%,7%,700"]

/-- The cleaned tickets of the C1 witness run. -/
def c1ts : List Ticket := ((load_clean_tickets c1m).toOption).getD []

/-- The compiled table of the C1 witness run. -/
def c1out : List Compiled :=
  ((compile_dataset c1m (some c1fuel) none (some c1tour)).toOption).getD []

unseal Rat.add Rat.mul Rat.inv Rat.sub Rat.ofScientific in
theorem c1_witness :
    load_clean_tickets c1m = .ok c1ts ∧
    compile_dataset c1m (some c1fuel) none (some c1tour) = .ok c1out ∧
    c1out.length = c1ts.length :=
  ⟨by decide, by decide,
    c1_compile_preserves_row_count c1m (some c1fuel) none (some c1tour) c1ts c1out
      (by decide) (by decide)⟩

/-- Concrete master input whose single row has `large_ms` exactly 0.40. -/
def c2m : MasterInput :=
  ⟨requiredCols ++ ["large_ms"], [{ sampleRow with large_ms := .floatV 0.4 }]⟩

unseal Rat.add Rat.mul Rat.inv Rat.sub Rat.ofScientific in
/-- C2 counterexample: compiling a master whose single row has
`large_ms = 0.40` labels that row "high_competition", because the
right-closed `pd.cut` bins put 0.4 into (-inf, 0.4]; the claim says the row
is labelled "moderate". -/
theorem c2_counterexample :
    (compile_dataset c2m none none none).map (fun l => l.map Compiled.dominance_bucket)
      = .ok [some (some "high_competition")]
    ∧ ("high_competition" : String) ≠ "moderate" :=
  ⟨by decide, by decide⟩

/-- C2 amended: in the dominance bucketization, a row with `large_ms`
exactly equal to 0.40 is assigned the label "high_competition" (the
(-inf, 0.4] bin of the right-closed cut), not "moderate". -/
theorem c2_amended (m : MasterInput) (fuel cpi : Option FuelInput)
    (tourism : Option (List String)) (out : List Compiled)
    (h : compile_dataset m fuel cpi tourism = .ok out) :
    ∀ r ∈ out, r.t.large_ms = some (some (0.4 : ℚ)) →
      r.dominance_bucket = some (some "high_competition") := by
  obtain ⟨ts, s1, s2, s3, _, _, _, _, hsort⟩ := compile_dataset_ok h
  subst hsort
  intro r hr hlm
  have hr2 := ((List.perm_insertionSort compiledLe _).mem_iff).mp hr
  obtain ⟨x, _, rfl⟩ := List.mem_map.mp hr2
  have hx : (finishRow x).t.large_ms = x.1.1.1.1.large_ms := rfl
  rw [hx] at hlm
  show x.1.1.1.1.large_ms.map
    (pdCut3 0.4 0.7 "high_competition" "moderate" "dominated") = some (some "high_competition")
  rw [hlm]
  simp only [Option.map_some', pdCut3, Option.some.injEq]
  norm_num

/-- The compiled table of the C2 witness run. -/
def c2out : List Compiled := ((compile_dataset c2m none none none).toOption).getD []

unseal Rat.add Rat.mul Rat.inv Rat.sub Rat.ofScientific in
theorem c2_amended_witness :
    compile_dataset c2m none none none = .ok c2out ∧
    (∀ r ∈ c2out, r.t.large_ms = some (some (0.4 : ℚ)) →
      r.dominance_bucket = some (some "high_competition")) :=
  ⟨by decide, c2_amended c2m none none none c2out (by decide)⟩

/-- C8: `compile_dataset` is deterministic — a second run on equal inputs
returns the same table — and the returned table is sorted ascending by
(Year, quarter, citymarketid_1, citymarketid_2) with absent keys last.  The
renumbering of row positions from zero is inherent in the list
representation of the frame. -/
theorem c8_deterministic_sorted (m : MasterInput) (fuel cpi : Option FuelInput)
    (tourism : Option (List String)) (out : List Compiled)
    (h : compile_dataset m fuel cpi tourism = .ok out) :
    (∀ m2 fuel2 cpi2 tourism2, m2 = m → fuel2 = fuel → cpi2 = cpi → tourism2 = tourism →
        compile_dataset m2 fuel2 cpi2 tourism2 = .ok out)
  ∧ List.Sorted compiledLe out := by
  constructor
  · intro m2 f2 c2 t2 hm hf hc ht
    subst hm; subst hf; subst hc; subst ht
    exact h
  · obtain ⟨ts, s1, s2, s3, _, _, _, _, hsort⟩ := compile_dataset_ok h
    rw [hsort]
    exact List.sorted_insertionSort compiledLe _

/-- Concrete master input for the C8 witness, given in unsorted order. -/
def c8m : MasterInput :=
  ⟨requiredCols,
   [{ sampleRow with quarter := .intV 3 },
    { sampleRow with quarter := .intV 1, cmid1 := 50 },
    sampleRow]⟩

/-- The compiled table of the C8 witness run. -/
def c8out : List Compiled := ((compile_dataset c8m none none none).toOption).getD []

unseal Rat.add Rat.mul Rat.inv Rat.sub Rat.ofScientific in
theorem c8_witness :
    compile_dataset c8m none none none = .ok c8out ∧ List.Sorted compiledLe c8out :=
  ⟨by decide, (c8_deterministic_sorted c8m none none none c8out (by decide)).2⟩

/-- Master column set missing only `fare`. -/
def c3cols : List String :=
  ["Year", "quarter", "citymarketid_1", "citymarketid_2", "city1", "city2",
   "nsmiles", "passengers"]

/-- C3: `load_clean_tickets` fails on a master file lacking required columns
with an error that lists exactly the missing columns — in particular, a file
missing only `fare` raises an error naming `fare` — and when all nine
required columns are present this error is never raised. -/
theorem c3_schema_validation (m : MasterInput) :
    ((requiredCols.filter (fun c => !(m.cols.contains c))) ≠ [] →
      load_clean_tickets m =
        .error (.ticketsMissing (requiredCols.filter (fun c => !(m.cols.contains c)))))
  ∧ ((∀ c ∈ requiredCols, c ∈ m.cols) →
      ∀ miss, load_clean_tickets m ≠ .error (.ticketsMissing miss))
  ∧ load_clean_tickets ⟨c3cols, []⟩ = .error (.ticketsMissing ["fare"]) := by
  refine ⟨?_, ?_, by decide⟩
  · intro hne
    simp only [load_clean_tickets]
    rw [if_neg ?_]
    simp only [List.isEmpty_iff]
    exact hne
  · intro hall miss
    have hmiss : requiredCols.filter (fun c => !(m.cols.contains c)) = [] := by
      rw [List.filter_eq_nil_iff]
      intro c hc
      have hmem : List.elem c m.cols = true := List.elem_iff.mpr (hall c hc)
      simp [List.contains, hmem, hall c hc]
    simp only [load_clean_tickets, hmiss, List.isEmpty_nil, if_true]
    rcases hm : mapME (ticketOfRaw m.cols) m.rows with e | raws
    · obtain ⟨x, _, hfx⟩ := mapME_error_mem _ _ _ hm
      have he := ticketOfRaw_error hfx
      subst he
      simp
    · simp

/-- C4: every row of a successfully loaded master table has non-missing
Year, quarter, fare and distance; every surviving row is the untouched
cleaning of one input row (dropped, never imputed); and the admission
filter does not consult any other field — changing `passengers` cannot
change admission. -/
theorem c4_admission_filter (m : MasterInput) (ts : List Ticket)
    (h : load_clean_tickets m = .ok ts) :
    (∀ t ∈ ts, t.year.isSome = true ∧ t.quarter.isSome = true ∧
       t.fare.isSome = true ∧ t.nsmiles.isSome = true)
  ∧ (∀ t ∈ ts, ∃ r ∈ m.rows, ticketOfRaw m.cols r = .ok t)
  ∧ (∀ (t : Ticket) (p : Option ℚ), admitTicket { t with passengers := p } = admitTicket t) := by
  obtain ⟨hcond, raws, hm, hts⟩ := load_clean_tickets_ok h
  subst hts
  refine ⟨?_, ?_, fun t p => rfl⟩
  · intro t ht
    have h2 := List.mem_filter.mp (dedupBy_subset _ _ _ ht)
    have ha := h2.2
    unfold admitTicket at ha
    simp only [Bool.and_eq_true] at ha
    exact ⟨ha.1.1.1, ha.1.1.2, ha.1.2, ha.2⟩
  · intro t ht
    have h2 := List.mem_filter.mp (dedupBy_subset _ _ _ ht)
    exact mapME_ok_mem _ _ _ hm t h2.1

/-- Concrete master input for the C4 witness: the second row is missing its
fare and must be dropped; the first has no passengers value yet is admitted. -/
def c4m : MasterInput :=
  ⟨requiredCols,
   [{ sampleRow with passengers := .nanV },
    { sampleRow with quarter := .intV 2, fare := .nanV }]⟩

/-- The cleaned tickets of the C4 witness run. -/
def c4ts : List Ticket := ((load_clean_tickets c4m).toOption).getD []

unseal Rat.add Rat.mul Rat.inv Rat.sub Rat.ofScientific in
theorem c4_witness :
    load_clean_tickets c4m = .ok c4ts ∧ c4ts.length = 1 ∧
    (∀ t ∈ c4ts, t.year.isSome = true ∧ t.quarter.isSome = true ∧
       t.fare.isSome = true ∧ t.nsmiles.isSome = true) :=
  ⟨by decide, by decide, (c4_admission_filter c4m c4ts (by decide)).1⟩

/-- Fuel input whose only observation in 2023-Q1 has an unparseable value. -/
def c5badFuel : FuelInput :=
  ⟨["observation_date", "WJFUELUSGULF"], [["2023-01-15", "abc"]]⟩

unseal Rat.add Rat.mul Rat.inv Rat.sub Rat.ofScientific in
/-- C5 counterexample: a quarter whose only observation fails numeric
parsing is present in the quarterly lookup with a missing value; the claim
says a quarter with no valid observations is absent from the output. -/
theorem c5_counterexample :
    load_fuel_quarterly c5badFuel = .ok [⟨2023, 1, none⟩]
    ∧ toNumeric (.strV "abc") = none :=
  ⟨by decide, by decide⟩

/-- Fuel input with two parseable 2023-Q1 observations, 3.0 and 5.0. -/
def c5fuel : FuelInput :=
  ⟨["observation_date", "WJFUELUSGULF"], [["2023-01-06", "3.0"], ["2023-01-13", "5.0"]]⟩

unseal Rat.add Rat.mul Rat.inv Rat.sub Rat.ofScientific in
/-- C5 amended: the quarterly loaders emit at most one row per
(Year, quarter); every emitted quarter has at least one source observation
dated in it (quarters with no observations at all are absent, and the NaN
time key group is discarded); the value is the skipna mean of the
numerically-parseable observations of the quarter, missing when none parse;
and two observations 3.0 and 5.0 in 2023-Q1 yield 4.0. -/
theorem c5_amended :
    (∀ (f : FuelInput) (lk : List QEntry), load_fuel_quarterly f = .ok lk →
        ((lk.map (fun e => (e.year, e.quarter))).Nodup
      ∧ (∀ e ∈ lk, ∃ r ∈ f.rows, fuelKey f.cols r = some (e.year, e.quarter))
      ∧ (∃ vc, firstNonDate f.cols = some vc ∧
          ∀ e ∈ lk, e.val = meanOfValid
            (((fuelPairs f vc).filter
                (fun p => p.1 == some (e.year, e.quarter))).map Prod.snd))))
  ∧ (∀ (f : FuelInput) (lk : List QEntry), load_cpi_quarterly f = .ok lk →
        (lk.map (fun e => (e.year, e.quarter))).Nodup)
  ∧ load_fuel_quarterly c5fuel = .ok [⟨2023, 1, some 4⟩] := by
  refine ⟨?_, ?_, by decide⟩
  · intro f lk h
    obtain ⟨vc, hvc, hagg⟩ := load_fuel_quarterly_ok h
    subst hagg
    refine ⟨aggQuarterly_keys_nodup _, ?_, vc, hvc, ?_⟩
    · intro e he
      have hmem := (aggQuarterly_mem he).1
      obtain ⟨p, hp, hfst⟩ := List.mem_map.mp hmem
      obtain ⟨r, hr, hpr⟩ := List.mem_map.mp hp
      refine ⟨r, hr, ?_⟩
      have : p.1 = fuelKey f.cols r := by rw [← hpr]
      rw [← this, hfst]
    · intro e he
      exact (aggQuarterly_mem he).2
  · intro f lk h
    obtain ⟨vc, hvc, hagg⟩ := load_cpi_quarterly_ok h
    subst hagg
    exact aggQuarterly_keys_nodup _

/-- The quarterly lookup of the C5 witness run. -/
def c5lk : List QEntry := ((load_fuel_quarterly c5fuel).toOption).getD []

unseal Rat.add Rat.mul Rat.inv Rat.sub Rat.ofScientific in
theorem c5_amended_witness :
    load_fuel_quarterly c5fuel = .ok c5lk ∧
    ((c5lk.map (fun e => (e.year, e.quarter))).Nodup
      ∧ (∀ e ∈ c5lk, ∃ r ∈ c5fuel.rows, fuelKey c5fuel.cols r = some (e.year, e.quarter))
      ∧ (∃ vc, firstNonDate c5fuel.cols = some vc ∧
          ∀ e ∈ c5lk, e.val = meanOfValid
            (((fuelPairs c5fuel vc).filter
                (fun p => p.1 == some (e.year, e.quarter))).map Prod.snd))) :=
  ⟨by decide, (c5_amended.1) c5fuel c5lk (by decide)⟩

/-- Tourism report lines with two rows naming California and one naming an
unrecognized territory. -/
def c6lines : List String :=
  ["2024 Top States and Cities Visited",
   "1,California,10%,\"1,000\",5%,9%,900",
   "2,California,11%,\"1,100\",6%,8%,800",
   "3,Atlantis,12%,\"1,200\",7%,7%,700"]

/-- The entry the C6 run must keep: the first California row, keyed CA. -/
def c6entry : TourEntry :=
  { state_name := "California", state_abbr := some "CA",
    overseas_share_2024 := some (1/10), overseas_visitation_2024 := some 1000000,
    overseas_change_2024_vs_2023 := some (1/20), overseas_share_2023 := some (9/100),
    overseas_visitation_2023 := some 900000 }

unseal Rat.add Rat.mul Rat.inv Rat.sub Rat.ofScientific in
/-- C6: the tourism lookup has at most one entry per state abbreviation,
every entry carries a resolvable abbreviation obtained from the fixed
name-to-abbreviation map applied to its state name, and on a file with two
California rows and an unrecognized territory the output is exactly the
first California entry keyed CA, with the unmapped row absent. -/
theorem c6_tourism_dedup :
    (∀ (lines : List String) (ov : List TourEntry),
      load_overseas_visitors lines = .ok ov →
        (ov.map TourEntry.state_abbr).Nodup
      ∧ (∀ e ∈ ov, e.state_abbr.isSome = true ∧ e.state_abbr = stateAbbr? e.state_name))
  ∧ load_overseas_visitors c6lines = .ok [c6entry] := by
  refine ⟨?_, by decide⟩
  intro lines ov h
  obtain ⟨hnd, hall⟩ := load_overseas_visitors_ok h
  refine ⟨hnd, ?_⟩
  intro e he
  obtain ⟨hsome, row, hrec, _, _⟩ := hall e he
  subst hrec
  exact ⟨hsome, rfl⟩

/-- The tourism lookup of the C6 witness run. -/
def c6ov : List TourEntry := ((load_overseas_visitors c6lines).toOption).getD []

unseal Rat.add Rat.mul Rat.inv Rat.sub Rat.ofScientific in
theorem c6_witness :
    load_overseas_visitors c6lines = .ok c6ov ∧
    ((c6ov.map TourEntry.state_abbr).Nodup
      ∧ (∀ e ∈ c6ov, e.state_abbr.isSome = true ∧ e.state_abbr = stateAbbr? e.state_name)) :=
  ⟨by decide, (c6_tourism_dedup.1) c6lines c6ov (by decide)⟩

unseal Rat.add Rat.mul Rat.inv Rat.sub Rat.ofScientific in
/-- C7: `parse_money` is total by construction and satisfies the contract:
numeric inputs pass through as floats, the missing markers give the missing
sentinel, a string that is empty after stripping dollar signs and commas or
whose residue fails the numeric parse gives the missing sentinel, any other
string yields its parsed value, `parse_money("$1,234.50") = 1234.50` and
`parse_money(42) = 42.0`. -/
theorem c7_parse_money_contract :
    (∀ n : ℤ, parse_money (.intV n) = some (n : ℚ))
  ∧ (∀ q : ℚ, parse_money (.floatV q) = some q)
  ∧ parse_money .nanV = none
  ∧ parse_money .noneV = none
  ∧ (∀ s, moneyClean s = "" → parse_money (.strV s) = none)
  ∧ (∀ s, pyFloat? (moneyClean s) = none → parse_money (.strV s) = none)
  ∧ (∀ s q, pyFloat? (moneyClean s) = some q → parse_money (.strV s) = some q)
  ∧ parse_money (.strV "$1,234.50") = some (1234.50 : ℚ)
  ∧ parse_money (.intV 42) = some (42.0 : ℚ) := by
  refine ⟨fun n => rfl, fun q => rfl, rfl, rfl, ?_, ?_, ?_, ?_, ?_⟩
  · intro s hs
    simp only [parse_money]
    rw [if_pos hs]
  · intro s hs
    simp only [parse_money]
    by_cases he : moneyClean s = ""
    · rw [if_pos he]
    · rw [if_neg he]
      exact hs
  · intro s q hq
    simp only [parse_money]
    by_cases he : moneyClean s = ""
    · rw [he] at hq
      have h0 : pyFloat? "" = none := by decide
      rw [h0] at hq
      exact absurd hq (by simp)
    · rw [if_neg he]
      exact hq
  · decide
  · decide

unseal Rat.add Rat.mul Rat.inv Rat.sub Rat.ofScientific in
theorem c7_witness :
    (moneyClean "" = "" ∧ parse_money (.strV "") = none)
  ∧ (pyFloat? (moneyClean "12x") = none ∧ parse_money (.strV "12x") = none)
  ∧ (pyFloat? (moneyClean " $2,500.75 ") = some (10003/4) ∧
       parse_money (.strV " $2,500.75 ") = some (10003/4)) :=
  ⟨⟨by decide, (c7_parse_money_contract.2.2.2.2.1) "" (by decide)⟩,
   ⟨by decide, (c7_parse_money_contract.2.2.2.2.2.1) "12x" (by decide)⟩,
   ⟨by decide, (c7_parse_money_contract.2.2.2.2.2.2.1) " $2,500.75 " (10003/4) (by decide)⟩⟩

unseal Rat.add Rat.mul Rat.inv Rat.sub Rat.ofScientific in
/-- C9 counterexample: `num_k` on the parseable fractional input "2.5"
stores 2000, which is the truncation of 2.5 times 1000 and not the
2500 = 2.5 * 1000 the claim requires. -/
theorem c9_counterexample :
    pyFloat? (numkClean "2.5") = some (5/2 : ℚ)
  ∧ ((5/2 : ℚ) * 1000 = 2500)
  ∧ num_k "2.5" = some 2000
  ∧ num_k "2.5" ≠ some 2500 :=
  ⟨by decide, by decide, by decide, by decide⟩

unseal Rat.add Rat.mul Rat.inv Rat.sub Rat.ofScientific in
/-- C9 amended: a scaled count field that parses as x is stored as the
truncation toward zero of x, times 1000; empty or unparseable cleaned text
is absent; for an integral x the stored count is exactly x times 1000; and
the tourism records store `num_k` of fields 3 and 6. -/
theorem c9_amended :
    (∀ s q, pyFloat? (numkClean s) = some q → num_k s = some (pyIntOfFloat q * 1000))
  ∧ (∀ s, numkClean s = "" → num_k s = none)
  ∧ (∀ s, pyFloat? (numkClean s) = none → num_k s = none)
  ∧ (∀ (s : String) (n : ℤ), pyFloat? (numkClean s) = some (n : ℚ) →
       num_k s = some (n * 1000))
  ∧ (∀ row, (tourRecord row).overseas_visitation_2024 = num_k (row.getD 3 "")
        ∧ (tourRecord row).overseas_visitation_2023 = num_k (row.getD 6 "")) := by
  have hfirst : ∀ s q, pyFloat? (numkClean s) = some q →
      num_k s = some (pyIntOfFloat q * 1000) := by
    intro s q hq
    simp only [num_k]
    by_cases he : numkClean s = ""
    · rw [he] at hq
      have h0 : pyFloat? "" = none := by decide
      rw [h0] at hq
      exact absurd hq (by simp)
    · rw [if_neg he, hq]
  refine ⟨hfirst, ?_, ?_, ?_, fun row => ⟨rfl, rfl⟩⟩
  · intro s hs
    simp only [num_k]
    rw [if_pos hs]
  · intro s hs
    simp only [num_k]
    by_cases he : numkClean s = ""
    · rw [if_pos he]
    · rw [if_neg he, hs]
  · intro s n hn
    have := hfirst s (n : ℚ) hn
    rw [this]
    have htr : pyIntOfFloat (n : ℚ) = n := by
      by_cases hp : (0 : ℚ) ≤ (n : ℚ)
      · rw [pyIntOfFloat, if_pos hp, Int.floor_intCast]
      · rw [pyIntOfFloat, if_neg hp, Int.ceil_intCast]
    rw [htr]

unseal Rat.add Rat.mul Rat.inv Rat.sub Rat.ofScientific in
theorem c9_amended_witness :
    (pyFloat? (numkClean "\"8,501\"") = some ((8501 : ℤ) : ℚ)
      ∧ num_k "\"8,501\"" = some (8501 * 1000))
  ∧ (numkClean " " = "" ∧ num_k " " = none)
  ∧ (pyFloat? (numkClean "n/a") = none ∧ num_k "n/a" = none) :=
  ⟨⟨by decide, (c9_amended.2.2.2.1) "\"8,501\"" 8501 (by decide)⟩,
   ⟨by decide, (c9_amended.2.1) " " (by decide)⟩,
   ⟨by decide, (c9_amended.2.2.1) "n/a" (by decide)⟩⟩

/-- The two-column restriction of a fuel or cost-index file: the date column
plus the single value column `vc`. -/
def restrictTwoCols (f : FuelInput) (vc : String) : FuelInput :=
  ⟨["observation_date", vc],
   f.rows.map (fun r => [getCell f.cols r "observation_date", getCell f.cols r vc])⟩

/-- C10: on an input with the `observation_date` column plus two or more
other columns, the quarterly loaders do not fail: they aggregate the first
non-date column in column order and their output equals the output on the
input restricted to the date column and that first value column, so every
other column is silently dropped. -/
theorem c10_extra_columns (f : FuelInput) (vc : String)
    (hd : "observation_date" ∈ f.cols) (hvc : firstNonDate f.cols = some vc)
    (_hn : 2 ≤ (f.cols.filter (fun c => c != "observation_date")).length) :
    (∃ lk, load_fuel_quarterly f = .ok lk)
  ∧ load_fuel_quarterly f = load_fuel_quarterly (restrictTwoCols f vc)
  ∧ load_cpi_quarterly f = load_cpi_quarterly (restrictTwoCols f vc) := by
  have hne : vc ≠ "observation_date" := by
    have := List.find?_some hvc
    simpa using this
  have hne2 : ("observation_date" : String) ≠ vc := Ne.symm hne
  have hd2 : "observation_date" ∈ (restrictTwoCols f vc).cols := by
    simp [restrictTwoCols]
  have hvc2 : firstNonDate (restrictTwoCols f vc).cols = some vc := by
    simp only [restrictTwoCols, firstNonDate, List.find?]
    rw [show (("observation_date" : String) != "observation_date") = false by simp]
    rw [show (vc != "observation_date") = true by simpa using hne]
  have hpairs : fuelPairs (restrictTwoCols f vc) vc = fuelPairs f vc := by
    unfold fuelPairs restrictTwoCols
    simp only [List.map_map]
    apply List.map_congr_left
    intro r _
    have hg1 : getCell ["observation_date", vc]
        [getCell f.cols r "observation_date", getCell f.cols r vc] "observation_date"
        = getCell f.cols r "observation_date" := by
      simp [getCell, colIdx]
    have hg2 : getCell ["observation_date", vc]
        [getCell f.cols r "observation_date", getCell f.cols r vc] vc
        = getCell f.cols r vc := by
      simp [getCell, colIdx, hne2]
    simp only [Function.comp]
    rw [fuelKey, fuelKey, hg1, hg2]
  refine ⟨⟨aggQuarterly (fuelPairs f vc), ?_⟩, ?_, ?_⟩
  · simp [load_fuel_quarterly, hd, hvc]
  · simp [load_fuel_quarterly, hd, hvc, hd2, hvc2, hpairs]
  · simp [load_cpi_quarterly, hd, hvc, hd2, hvc2, hpairs]

/-- A fuel file with two value columns besides the date column. -/
def c10f : FuelInput :=
  ⟨["observation_date", "A", "B"],
   [["2023-01-06", "3.0", "7.0"], ["2023-01-13", "5.0", "9.0"]]⟩

unseal Rat.add Rat.mul Rat.inv Rat.sub Rat.ofScientific in
theorem c10_witness :
    firstNonDate c10f.cols = some "A"
  ∧ 2 ≤ (c10f.cols.filter (fun c => c != "observation_date")).length
  ∧ load_fuel_quarterly c10f = load_fuel_quarterly (restrictTwoCols c10f "A")
  ∧ load_fuel_quarterly c10f = .ok [⟨2023, 1, some 4⟩] :=
  ⟨by decide, by decide,
   (c10_extra_columns c10f "A" (by decide) (by decide) (by decide)).2.1,
   by decide⟩

/-- Master input missing most required columns, for the C3 witness. -/
def c3mBad : MasterInput := ⟨["Year", "quarter"], []⟩

/-- Master input with exactly the required columns, for the C3 witness. -/
def c3mGood : MasterInput := ⟨requiredCols, [sampleRow]⟩

unseal Rat.add Rat.mul Rat.inv Rat.sub Rat.ofScientific in
theorem c3_witness :
    (requiredCols.filter (fun c => !(c3mBad.cols.contains c))) ≠ []
  ∧ load_clean_tickets c3mBad =
      .error (.ticketsMissing (requiredCols.filter (fun c => !(c3mBad.cols.contains c))))
  ∧ (∀ miss, load_clean_tickets c3mGood ≠ .error (.ticketsMissing miss)) :=
  ⟨by decide, (c3_schema_validation c3mBad).1 (by decide),
   (c3_schema_validation c3mGood).2.1 (by decide)⟩
